import Mathlib

/-!
Verification of the emulator core (pyboy-derived sources) against its
specification.  Each section shallowly embeds one source component:

* `PaletteRegister`  — src/pyboy/core/register.py
* `ROMOnly`          — src/pyboy/core/cartridge/base_mbc.py
* `LCDCRegister`, `STATRegister`, `LCD` — src/pyboy/core/lcd.py, register.py
* sprite selection / sorting — src/pyboy/core/lcd.py (Renderer)
* `CPU`              — src/pyboy/core/cpu.py

Machine integers are modelled as `Nat` (Python integers are unbounded; the
source masks explicitly where wrap-around matters, and the embedding keeps
those masks).  Python's `x & 0xFFFF` on a possibly negative `x` (two's
complement) is rendered as `(x + 2^16 - k) % 2^16` at the concrete sites
where the subtrahend `k` is a literal and the minuend is `< 2^16`.
-/

namespace Smartboy

/-- Interrupt source bits, from `[1 << x for x in range(5)]` in cpu.py/lcd.py. -/
def INTR_VBLANK : Nat := 1
def INTR_LCDC : Nat := 2
def INTR_TIMER : Nat := 4
def INTR_SERIAL : Nat := 8
def INTR_HIGHTOLOW : Nat := 16

/-! ## PaletteRegister (register.py lines 12–33) -/

/-- State of `PaletteRegister`: the stored raw byte and the 4-entry 2-bit
lookup table.  (`palette_mem_rgb` plays no role in `set` and is omitted.) -/
structure PaletteRegister where
  value : Nat
  lookup : List Nat
deriving DecidableEq

/-- `PaletteRegister.set` (register.py 19–27): if the stored value already
equals the new one, return `False` and change nothing; otherwise store it,
rebuild `lookup[x] = (value >> x*2) & 0b11` for `x` in 0..3 and return
`True`.  The Python method mutates in place and returns the bool; the
embedding returns the pair (returned bool, new state). -/
def PaletteRegister.set (s : PaletteRegister) (value : Nat) : Bool × PaletteRegister :=
  if s.value = value then
    (false, s)
  else
    (true, { value := value
             lookup := (List.range 4).map (fun x => (value >>> (x * 2)) &&& 0b11) })

/-! ## ROMOnly cartridge (base_mbc.py) -/

/-- State of a `ROMOnly` cartridge, the fields of `BaseMBC.__init__` that
`getitem`/`setitem` touch.  Banked stores are functions bank → offset → byte
(the source uses a 2-D memoryview).  `rtcregister` stands for
`self.rtc.getregister`. -/
structure ROMOnly where
  rombanks : Nat → Nat → Nat
  rambanks : Nat → Nat → Nat
  rombank_selected : Nat
  rambank_selected : Nat
  rambank_enabled : Bool
  rtc_enabled : Bool
  rtcregister : Nat → Nat

/-- `ROMOnly.setitem` (base_mbc.py 89–98): writes to 0x2000–0x3FFF select the
ROM bank (`value` promoted from 0 to 1, then masked with 0b1); writes to
0xA000–0xBFFF store into the selected RAM bank.  All other writes are
ignored. -/
def ROMOnly.setitem (s : ROMOnly) (address value : Nat) : ROMOnly :=
  if 0x2000 ≤ address ∧ address < 0x4000 then
    let value := if value = 0 then 1 else value
    { s with rombank_selected := value &&& 0b1 }
  else if 0xA000 ≤ address ∧ address < 0xC000 then
    { s with rambanks := fun b o =>
        if b = s.rambank_selected ∧ o = address - 0xA000 then value else s.rambanks b o }
  else
    s

/-- `BaseMBC.getitem` (base_mbc.py 54–69): ROM bank 0 at 0x0000–0x3FFF, the
selected bank at 0x4000–0x7FFF; the external-RAM window 0xA000–0xBFFF reads
0xFF while `rambank_enabled` is false, else RTC or RAM.  Addresses the Python
method falls through (implicitly returning `None`) give `none`. -/
def ROMOnly.getitem (s : ROMOnly) (address : Nat) : Option Nat :=
  if address < 0x4000 then
    some (s.rombanks 0 address)
  else if 0x4000 ≤ address ∧ address < 0x8000 then
    some (s.rombanks s.rombank_selected (address - 0x4000))
  else if 0xA000 ≤ address ∧ address < 0xC000 then
    if s.rambank_enabled = false then
      some 0xFF
    else if s.rtc_enabled = true ∧ 0x08 ≤ s.rambank_selected ∧ s.rambank_selected ≤ 0x0C then
      some (s.rtcregister s.rambank_selected)
    else
      some (s.rambanks s.rambank_selected (address - 0xA000))
  else
    none

/-- The cartridge state right after `BaseMBC.__init__` (base_mbc.py 10–29):
`rambank_enabled = False`, `rambank_selected = 0`, `rombank_selected = 1`,
RAM banks zeroed, no RTC for a ROM-only cartridge type. -/
def ROMOnly.init (rombanks : Nat → Nat → Nat) : ROMOnly :=
  { rombanks := rombanks
    rambanks := fun _ _ => 0
    rombank_selected := 1
    rambank_selected := 0
    rambank_enabled := false
    rtc_enabled := false
    rtcregister := fun _ => 0 }

/-- Run a sequence of `setitem` calls (address, value) left to right. -/
def ROMOnly.applyWrites (s : ROMOnly) (ws : List (Nat × Nat)) : ROMOnly :=
  ws.foldl (fun s w => s.setitem w.1 w.2) s

theorem ROMOnly.setitem_rambank_enabled (s : ROMOnly) (a v : Nat) :
    (s.setitem a v).rambank_enabled = s.rambank_enabled := by
  unfold ROMOnly.setitem
  split <;> [rfl; skip]
  split <;> rfl

theorem ROMOnly.applyWrites_rambank_enabled (s : ROMOnly) (ws : List (Nat × Nat)) :
    (s.applyWrites ws).rambank_enabled = s.rambank_enabled := by
  induction ws generalizing s with
  | nil => rfl
  | cons w ws ih =>
      simpa [ROMOnly.applyWrites, ROMOnly.setitem_rambank_enabled]
        using (ih (s.setitem w.1 w.2)).trans (ROMOnly.setitem_rambank_enabled s w.1 w.2)

/-! ## Theorems for the palette register and the ROM-only cartridge -/

/-- C9: `PaletteRegister.set` is idempotent with respect to rebuilds: writing
the stored value again returns `False` and leaves value and lookup table
unchanged (no second rebuild); writing a different value returns `True` and
sets `lookup[x] = (v >> 2x) & 0b11` for `x` in 0..3. -/
theorem paletteRegister_set_idempotent (s : PaletteRegister) (v : Nat) :
    (s.value = v → s.set v = (false, s)) ∧
    (s.value ≠ v →
      (s.set v).1 = true ∧ (s.set v).2.value = v ∧
      (s.set v).2.lookup = (List.range 4).map (fun x => (v >>> (x * 2)) &&& 0b11)) := by
  constructor
  · intro h
    simp [PaletteRegister.set, h]
  · intro h
    simp [PaletteRegister.set, h]

theorem paletteRegister_set_idempotent_witness :
    ((⟨0xE4, [0, 1, 2, 3]⟩ : PaletteRegister).set 0xE4 = (false, ⟨0xE4, [0, 1, 2, 3]⟩)) ∧
    (((⟨0xE4, [0, 1, 2, 3]⟩ : PaletteRegister).set 0x1B).1 = true ∧
      ((⟨0xE4, [0, 1, 2, 3]⟩ : PaletteRegister).set 0x1B).2.value = 0x1B ∧
      ((⟨0xE4, [0, 1, 2, 3]⟩ : PaletteRegister).set 0x1B).2.lookup =
        (List.range 4).map (fun x => (0x1B >>> (x * 2)) &&& 0b11)) :=
  ⟨(paletteRegister_set_idempotent ⟨0xE4, [0, 1, 2, 3]⟩ 0xE4).1 rfl,
   (paletteRegister_set_idempotent ⟨0xE4, [0, 1, 2, 3]⟩ 0x1B).2 (by decide)⟩

/-- C8 counterexample: the claim says the selected ROM bank is never bank 0
after a write to 0x2000–0x3FFF, but writing value 2 selects bank 0, because
the source promotes 0 to 1 *before* masking with 0b1 (`2 & 0b1 = 0`). -/
theorem romOnly_setitem_bank_zero_counterexample :
    ((ROMOnly.init (fun _ _ => 0)).setitem 0x2000 2).rombank_selected = 0 := by
  rfl

/-- C8 amended: a write of `v` to 0x2000–0x3FFF on a ROMOnly cartridge sets
the selected ROM bank to `(if v = 0 then 1 else v) & 0b1` — i.e. 0 is
promoted to 1 before masking, so bank 0 *is* selected whenever `v` is a
nonzero even value.  A write to 0xA000–0xBFFF stores the value into the
selected RAM bank at that offset. -/
theorem romOnly_setitem_spec (s : ROMOnly) (a v : Nat) :
    (0x2000 ≤ a → a < 0x4000 →
      (s.setitem a v).rombank_selected = (if v = 0 then 1 else v) &&& 0b1) ∧
    (0xA000 ≤ a → a < 0xC000 →
      (s.setitem a v).rambanks s.rambank_selected (a - 0xA000) = v) := by
  constructor
  · intro h1 h2
    simp [ROMOnly.setitem, h1, h2]
  · intro h1 h2
    have hno : ¬(0x2000 ≤ a ∧ a < 0x4000) := by omega
    simp [ROMOnly.setitem, hno, h1, h2]

theorem romOnly_setitem_spec_witness :
    ((ROMOnly.init (fun _ _ => 0)).setitem 0x2000 2).rombank_selected =
      (if (2 : Nat) = 0 then 1 else 2) &&& 0b1 ∧
    ((ROMOnly.init (fun _ _ => 0)).setitem 0xA123 0x42).rambanks
      (ROMOnly.init (fun _ _ => 0)).rambank_selected (0xA123 - 0xA000) = 0x42 :=
  ⟨(romOnly_setitem_spec (ROMOnly.init (fun _ _ => 0)) 0x2000 2).1 (by decide) (by decide),
   (romOnly_setitem_spec (ROMOnly.init (fun _ _ => 0)) 0xA123 0x42).2 (by decide) (by decide)⟩

/-- C10: on a ROMOnly cartridge, no sequence of `setitem` calls ever enables
the external-RAM window (`rambank_enabled` stays `false` from `__init__`), so
`getitem` of any address in 0xA000–0xBFFF returns 0xFF — even right after a
write stored a value into the RAM bank at that address. -/
theorem romOnly_getitem_ram_disabled (rom : Nat → Nat → Nat)
    (ws : List (Nat × Nat)) (a : Nat) (h1 : 0xA000 ≤ a) (h2 : a < 0xC000) :
    ((ROMOnly.init rom).applyWrites ws).getitem a = some 0xFF := by
  have hen : ((ROMOnly.init rom).applyWrites ws).rambank_enabled = false :=
    (ROMOnly.applyWrites_rambank_enabled (ROMOnly.init rom) ws).trans rfl
  have hno : ¬a < 0x4000 := by omega
  have hno2 : ¬(0x4000 ≤ a ∧ a < 0x8000) := by omega
  simp [ROMOnly.getitem, hno, hno2, h1, h2, hen]

theorem romOnly_getitem_ram_disabled_witness :
    ((ROMOnly.init (fun _ _ => 0)).applyWrites [(0xA123, 0x42)]).getitem 0xA123 =
      some 0xFF :=
  romOnly_getitem_ram_disabled (fun _ _ => 0) [(0xA123, 0x42)] 0xA123
    (by decide) (by decide)

/-! ## LCDC and STAT registers (register.py 35–87) -/

/-- `LCDCRegister` (register.py 70–87).  The Python class caches each bit as
a truthy integer (`value & (1 << k)`); the embedding keeps only `value` and
derives the bits, which is observationally identical. -/
structure LCDCRegister where
  value : Nat

def LCDCRegister.set (_ : LCDCRegister) (value : Nat) : LCDCRegister :=
  { value := value }

def LCDCRegister.lcd_enable (r : LCDCRegister) : Nat := r.value &&& (1 <<< 7)
def LCDCRegister.windowmap_select (r : LCDCRegister) : Nat := r.value &&& (1 <<< 6)
def LCDCRegister.window_enable (r : LCDCRegister) : Nat := r.value &&& (1 <<< 5)
def LCDCRegister.tiledata_select (r : LCDCRegister) : Nat := r.value &&& (1 <<< 4)
def LCDCRegister.backgroundmap_select (r : LCDCRegister) : Nat := r.value &&& (1 <<< 3)
def LCDCRegister.sprite_height (r : LCDCRegister) : Nat := r.value &&& (1 <<< 2)
def LCDCRegister.sprite_enable (r : LCDCRegister) : Nat := r.value &&& (1 <<< 1)
def LCDCRegister.background_enable (r : LCDCRegister) : Nat := r.value &&& (1 <<< 0)

/-- `STATRegister` state (register.py 35–38): the raw `value` (bit 7 always
set) and the private mode field `_mode`, here `mode`. -/
structure STATRegister where
  value : Nat
  mode : Nat

/-- `STATRegister.set_mode` (register.py 55–67).  Returns the raised
interrupt flag (0 or `INTR_LCDC`) together with the new register. -/
def STATRegister.set_mode (r : STATRegister) (mode : Nat) : Nat × STATRegister :=
  if r.mode = mode then
    (0, r)
  else
    let r : STATRegister := { mode := mode, value := (r.value &&& 0b11111100) ||| mode }
    if mode ≠ 3 ∧ r.value &&& (1 <<< (mode + 3)) ≠ 0 then
      (INTR_LCDC, r)
    else
      (0, r)

/-- `STATRegister.update_LYC` (register.py 45–53). -/
def STATRegister.update_LYC (r : STATRegister) (LYC LY : Nat) : Nat × STATRegister :=
  if LYC = LY then
    let r : STATRegister := { r with value := r.value ||| 0b100 }
    if r.value &&& 0b01000000 ≠ 0 then (INTR_LCDC, r) else (0, r)
  else
    (0, { r with value := r.value &&& 0b11111011 })

/-! ## LCD mode machine (lcd.py 27–194) -/

def FRAME_CYCLES : Nat := 70224

/-- The LCD fields acted on by `set_lcdc` and `tick` (lcd.py 27–194).  The
renderer (screen/tile buffers) is separate state that `tick` only feeds
forward into; it is modelled on its own below. -/
structure LCD where
  lcdc : LCDCRegister
  stat : STATRegister
  next_stat_mode : Nat
  SCY : Nat
  SCX : Nat
  LY : Nat
  LYC : Nat
  WY : Nat
  WX : Nat
  clock : Nat
  clock_target : Nat
  frame_done : Bool
  double_speed : Bool

/-- `LCD.set_lcdc` (lcd.py 79–91): store the LCDC byte; if bit 7 is now
clear, reset `clock` to 0, set `clock_target` to `FRAME_CYCLES`, force STAT
mode 0 (the returned interrupt flag is discarded by the source), set
`next_stat_mode` to 2 and force `LY` to 0. -/
def LCD.set_lcdc (l : LCD) (value : Nat) : LCD :=
  let l := { l with lcdc := l.lcdc.set value }
  if l.lcdc.lcd_enable = 0 then
    { l with clock := 0
             clock_target := FRAME_CYCLES
             stat := (l.stat.set_mode 0).2
             next_stat_mode := 2
             LY := 0 }
  else
    l

/-- `LCD.tick` (lcd.py 128–194).  Returns the raised interrupt flags and the
new LCD state.  The renderer calls in the mode-0 branch and `blank_screen`
in the disabled branch mutate only renderer state (modelled separately) and
are elided here. -/
def LCD.tick (l : LCD) (cycles : Nat) : Nat × LCD :=
  let l := { l with clock := l.clock + cycles }
  if l.lcdc.lcd_enable ≠ 0 then
    if l.clock_target ≤ l.clock then
      let sm := l.stat.set_mode l.next_stat_mode
      let iflag := sm.1
      let l := { l with stat := sm.2 }
      let multiplier := if l.double_speed then 2 else 1
      if l.stat.mode = 2 then
        let l :=
          if l.LY = 153 then
            { l with LY := 0
                     clock := l.clock % FRAME_CYCLES
                     clock_target := l.clock_target % FRAME_CYCLES }
          else
            { l with LY := l.LY + 1 }
        let l := { l with clock_target := l.clock_target + 80 * multiplier
                          next_stat_mode := 3 }
        let ul := l.stat.update_LYC l.LYC l.LY
        (iflag ||| ul.1, { l with stat := ul.2 })
      else if l.stat.mode = 3 then
        (iflag, { l with clock_target := l.clock_target + 170 * multiplier
                         next_stat_mode := 0 })
      else if l.stat.mode = 0 then
        let l := { l with clock_target := l.clock_target + 206 * multiplier }
        (iflag, { l with next_stat_mode := if l.LY < 143 then 2 else 1 })
      else if l.stat.mode = 1 then
        let l := { l with clock_target := l.clock_target + 456 * multiplier
                          next_stat_mode := 1
                          LY := l.LY + 1 }
        let ul := l.stat.update_LYC l.LYC l.LY
        let iflag2 := iflag ||| ul.1
        let l := { l with stat := ul.2 }
        let iflag3 := if l.LY = 144 then iflag2 ||| INTR_VBLANK else iflag2
        let l := if l.LY = 144 then { l with frame_done := true } else l
        if l.LY = 153 then (iflag3, { l with next_stat_mode := 2 }) else (iflag3, l)
      else
        (iflag, l)
    else
      (0, l)
  else
    if FRAME_CYCLES ≤ l.clock then
      (0, { l with frame_done := true, clock := l.clock % FRAME_CYCLES })
    else
      (0, l)

theorem STATRegister.set_mode_mode (r : STATRegister) (m : Nat) :
    ((r.set_mode m).2).mode = m := by
  unfold STATRegister.set_mode
  split
  · assumption
  · dsimp only
    split <;> rfl

/-- C4: whenever an enabled LCD fires a mode transition, the amount added to
`clock_target` is 80 dots on entering mode 2, 170 on mode 3, 206 on mode 0
(so a visible line totals 80+170+206 = 456 dots) and 456 dots for each
VBlank (mode 1) line, every duration doubled under `double_speed`.  (At the
LY=153→0 wrap both counters are first reduced mod `FRAME_CYCLES`; the 80-dot
mode 2 duration is added to the wrapped target.) -/
theorem lcd_tick_mode_durations (l : LCD) (cycles : Nat)
    (hen : l.lcdc.lcd_enable ≠ 0) (hfire : l.clock_target ≤ l.clock + cycles) :
    (l.next_stat_mode = 2 → l.LY ≠ 153 →
      (l.tick cycles).2.clock_target =
        l.clock_target + 80 * (if l.double_speed then 2 else 1)) ∧
    (l.next_stat_mode = 2 → l.LY = 153 →
      (l.tick cycles).2.clock_target =
        l.clock_target % FRAME_CYCLES + 80 * (if l.double_speed then 2 else 1)) ∧
    (l.next_stat_mode = 3 →
      (l.tick cycles).2.clock_target =
        l.clock_target + 170 * (if l.double_speed then 2 else 1)) ∧
    (l.next_stat_mode = 0 →
      (l.tick cycles).2.clock_target =
        l.clock_target + 206 * (if l.double_speed then 2 else 1)) ∧
    (l.next_stat_mode = 1 →
      (l.tick cycles).2.clock_target =
        l.clock_target + 456 * (if l.double_speed then 2 else 1)) ∧
    80 * (if l.double_speed then 2 else 1) + 170 * (if l.double_speed then 2 else 1)
      + 206 * (if l.double_speed then 2 else 1)
      = 456 * (if l.double_speed then 2 else 1) := by
  refine ⟨?_, ?_, ?_, ?_, ?_, by cases l.double_speed <;> norm_num⟩
  · intro h hLY
    simp [LCD.tick, hen, hfire, STATRegister.set_mode_mode, h, hLY]
  · intro h hLY
    simp [LCD.tick, hen, hfire, STATRegister.set_mode_mode, h, hLY]
  · intro h
    simp [LCD.tick, hen, hfire, STATRegister.set_mode_mode, h]
  · intro h
    simp [LCD.tick, hen, hfire, STATRegister.set_mode_mode, h]
  · intro h
    simp [LCD.tick, hen, hfire, STATRegister.set_mode_mode, h]
    split_ifs <;> rfl

theorem lcd_tick_mode_durations_witness :
    (({ lcdc := ⟨0x91⟩, stat := ⟨0x80, 2⟩, next_stat_mode := 3, SCY := 0, SCX := 0,
        LY := 0, LYC := 0, WY := 0, WX := 0, clock := 70, clock_target := 80,
        frame_done := false, double_speed := false } : LCD).tick 10).2.clock_target =
      80 + 170 * (if false then 2 else 1) :=
  (lcd_tick_mode_durations
      { lcdc := ⟨0x91⟩, stat := ⟨0x80, 2⟩, next_stat_mode := 3, SCY := 0, SCX := 0,
        LY := 0, LYC := 0, WY := 0, WX := 0, clock := 70, clock_target := 80,
        frame_done := false, double_speed := false } 10
      (by decide) (by decide)).2.2.1 rfl

/-- C3 counterexample: the claim says that writing LCDC with bit 7 clear
does *not* reset `next_stat_mode` to 2, but `set_lcdc` (lcd.py 90) does
exactly that: from a state with `next_stat_mode = 1`, writing 0x11 yields
`next_stat_mode = 2`. -/
theorem set_lcdc_next_stat_mode_counterexample :
    (LCD.set_lcdc
      { lcdc := ⟨0x91⟩, stat := ⟨0x81, 1⟩, next_stat_mode := 1, SCY := 0, SCX := 0,
        LY := 10, LYC := 0, WY := 0, WX := 0, clock := 5, clock_target := 100,
        frame_done := false, double_speed := false } 0x11).next_stat_mode = 2 := by
  rfl

/-- C3 amended: for every value `v` with bit 7 clear, `set_lcdc v` stores
`v`, sets `clock` to 0, `clock_target` to `FRAME_CYCLES` (70224), forces the
STAT mode field to 0, forces `LY` to 0 — and also resets `next_stat_mode`
to 2 in this same disable path. -/
theorem set_lcdc_disable_spec (l : LCD) (v : Nat) (h : v &&& (1 <<< 7) = 0) :
    (l.set_lcdc v).lcdc.value = v ∧
    (l.set_lcdc v).clock = 0 ∧
    (l.set_lcdc v).clock_target = FRAME_CYCLES ∧
    (l.set_lcdc v).stat.mode = 0 ∧
    (l.set_lcdc v).LY = 0 ∧
    (l.set_lcdc v).next_stat_mode = 2 := by
  have h128 : v &&& 128 = 0 := h
  have hmode : ((l.stat.set_mode 0).2).mode = 0 := by
    unfold STATRegister.set_mode
    split
    · assumption
    · dsimp only
      split <;> rfl
  simp [LCD.set_lcdc, LCDCRegister.set, LCDCRegister.lcd_enable, h128, hmode]

theorem set_lcdc_disable_spec_witness :
    ((0x11 : Nat) &&& (1 <<< 7) = 0) ∧
    ((LCD.set_lcdc
      { lcdc := ⟨0x91⟩, stat := ⟨0x81, 1⟩, next_stat_mode := 1, SCY := 0, SCX := 0,
        LY := 10, LYC := 0, WY := 0, WX := 0, clock := 5, clock_target := 100,
        frame_done := false, double_speed := false } 0x11).clock_target = FRAME_CYCLES) :=
  ⟨by decide,
   (set_lcdc_disable_spec
      { lcdc := ⟨0x91⟩, stat := ⟨0x81, 1⟩, next_stat_mode := 1, SCY := 0, SCX := 0,
        LY := 10, LYC := 0, WY := 0, WX := 0, clock := 5, clock_target := 100,
        frame_done := false, double_speed := false } 0x11 (by decide)).2.2.1⟩

/-! ## Renderer: window line counter (lcd.py 251–366) -/

/-- Effect of `Renderer.scanline(lcd, y)` on the window-internal line
counter `ly_window` (lcd.py 251–366).  With `disable_renderer` set the
method returns before touching the counter (line 261).  Otherwise
`ly_window` is incremented when `window_enable` is set, `WY ≤ y` and
`WX - 7 < 160 (= COLS)` (lines 274–275); after the pixel loop, at `y = 143`
the counter is reset to −1 (lines 364–366).  `wx = WX - 7, wy = WY` come
from `getwindowpos`; the counter and `wx` are signed. -/
def Renderer.scanline_ly_window (disable_renderer : Bool) (lcdc : LCDCRegister)
    (WX WY : Nat) (y : Nat) (ly_window : Int) : Int :=
  if disable_renderer then ly_window
  else
    let wx : Int := (WX : Int) - 7
    let wy : Int := (WY : Int)
    let ly_window :=
      if lcdc.window_enable ≠ 0 ∧ wy ≤ (y : Int) ∧ wx < 160 then ly_window + 1
      else ly_window
    if y = 143 then -1 else ly_window

/-- C7: with rendering enabled, `scanline` increments `ly_window` exactly
when the window is enabled, `WY ≤ y` and `WX - 7 < 160`; after the call with
`y = 143` the counter is −1, so the first incrementing line of the next
frame brings it to 0. -/
theorem Renderer.scanline_ly_window_eq (lcdc : LCDCRegister) (WX WY y : Nat)
    (lyw : Int) :
    Renderer.scanline_ly_window false lcdc WX WY y lyw =
      if y = 143 then -1
      else if lcdc.window_enable ≠ 0 ∧ (WY : Int) ≤ (y : Int) ∧ (WX : Int) - 7 < 160
        then lyw + 1 else lyw := by
  rfl

theorem renderer_scanline_ly_window_spec (lcdc : LCDCRegister) (WX WY y : Nat)
    (lyw : Int) :
    (y ≠ 143 →
      (Renderer.scanline_ly_window false lcdc WX WY y lyw = lyw + 1 ↔
        (lcdc.window_enable ≠ 0 ∧ (WY : Int) ≤ (y : Int) ∧ (WX : Int) - 7 < 160))) ∧
    (y ≠ 143 →
      (Renderer.scanline_ly_window false lcdc WX WY y lyw = lyw ↔
        ¬(lcdc.window_enable ≠ 0 ∧ (WY : Int) ≤ (y : Int) ∧ (WX : Int) - 7 < 160))) ∧
    (y = 143 → Renderer.scanline_ly_window false lcdc WX WY y lyw = -1) ∧
    (y ≠ 143 → lcdc.window_enable ≠ 0 → (WY : Int) ≤ (y : Int) → (WX : Int) - 7 < 160 →
      Renderer.scanline_ly_window false lcdc WX WY y (-1) = 0) := by
  refine ⟨?_, ?_, ?_, ?_⟩
  · intro hy
    rw [Renderer.scanline_ly_window_eq, if_neg hy]
    split
    case isTrue hc => exact ⟨fun _ => hc, fun _ => rfl⟩
    case isFalse hc => exact ⟨fun habs => absurd habs (by omega), fun hc' => absurd hc' hc⟩
  · intro hy
    rw [Renderer.scanline_ly_window_eq, if_neg hy]
    split
    case isTrue hc => exact ⟨fun habs => absurd habs (by omega), fun hc' => absurd hc hc'⟩
    case isFalse hc => exact ⟨fun _ => hc, fun _ => rfl⟩
  · intro hy
    rw [Renderer.scanline_ly_window_eq, if_pos hy]
  · intro hy h1 h2 h3
    rw [Renderer.scanline_ly_window_eq, if_neg hy, if_pos ⟨h1, h2, h3⟩]
    norm_num

theorem renderer_scanline_ly_window_spec_witness :
    Renderer.scanline_ly_window false ⟨0xB1⟩ 7 0 5 4 = 4 + 1 ∧
    Renderer.scanline_ly_window false ⟨0xB1⟩ 7 0 143 4 = -1 ∧
    Renderer.scanline_ly_window false ⟨0xB1⟩ 7 0 0 (-1) = 0 := by
  refine ⟨?_, ?_, ?_⟩
  · exact ((renderer_scanline_ly_window_spec ⟨0xB1⟩ 7 0 5 4).1 (by decide)).2
      (by refine ⟨by decide, by decide, by decide⟩)
  · exact (renderer_scanline_ly_window_spec ⟨0xB1⟩ 7 0 143 4).2.2.1 rfl
  · exact (renderer_scanline_ly_window_spec ⟨0xB1⟩ 7 0 0 (-1)).2.2.2 (by decide)
      (by decide) (by decide) (by decide)

/-! ## Renderer: sprite selection (lcd.py 385–413) -/

/-- The per-sprite visibility test of `scanline_sprites` (lcd.py 394–397):
with `y = OAM[n] - 16`, the sprite at OAM byte offset `n` is on scanline
`ly` iff `y ≤ ly < y + spriteheight` (signed comparison — `OAM[n] - 16` is
negative for partially hidden sprites). -/
def spriteOnScanline (oam : Nat → Nat) (ly spriteheight : Int) (n : Nat) : Bool :=
  ((oam n : Int) - 16 ≤ ly) && (ly < (oam n : Int) - 16 + spriteheight)

/-- OAM entry byte offsets visited by `range(0x00, 0xA0, 4)`. -/
def spriteEntries : List Nat := (List.range 40).map (fun i => 4 * i)

/-- The selection loop of `scanline_sprites` (lcd.py 392–406): walk the OAM
entries in order, append each sprite on the scanline, and break as soon as
10 have been collected.  `cnt` is `sprite_count`, `acc` the (reversed)
`sprites_to_render` prefix. -/
def selectGo (oam : Nat → Nat) (ly h : Int) : List Nat → Nat → List Nat → List Nat
  | [], _, acc => acc.reverse
  | n :: rest, cnt, acc =>
    let cnt' := if spriteOnScanline oam ly h n then cnt + 1 else cnt
    let acc' := if spriteOnScanline oam ly h n then n :: acc else acc
    if cnt' = 10 then acc'.reverse else selectGo oam ly h rest cnt' acc'

/-- The OAM entry offsets `scanline_sprites` selects for scanline `ly`, in
OAM order. -/
def scanlineSpritesSelect (oam : Nat → Nat) (ly spriteheight : Int) : List Nat :=
  selectGo oam ly spriteheight spriteEntries 0 []

theorem selectGo_eq_take_filter (oam : Nat → Nat) (ly h : Int) (es : List Nat)
    (cnt : Nat) (acc : List Nat) (hcnt : cnt < 10) :
    selectGo oam ly h es cnt acc =
      acc.reverse ++ (es.filter (spriteOnScanline oam ly h)).take (10 - cnt) := by
  induction es generalizing cnt acc with
  | nil => simp [selectGo]
  | cons n rest ih =>
      by_cases hn : spriteOnScanline oam ly h n
      · by_cases hfull : cnt + 1 = 10
        · have h9 : 10 - cnt = 1 := by omega
          simp [selectGo, hn, hfull, h9, List.filter_cons]
        · have hlt : cnt + 1 < 10 := by omega
          have hstep : 10 - cnt = (10 - (cnt + 1)) + 1 := by omega
          simp [selectGo, hn, hfull, ih (cnt + 1) (n :: acc) hlt, List.filter_cons,
            hstep]
      · have hne : ¬cnt = 10 := by omega
        simp [selectGo, hn, hne, ih cnt acc hcnt, List.filter_cons]

theorem mem_take_filter_sorted (p : Nat → Bool) (n : Nat) :
    ∀ (l : List Nat) (k : Nat), l.Pairwise (· < ·) →
      (n ∈ (l.filter p).take k ↔
        n ∈ l ∧ p n = true ∧
          ((l.filter (fun m => decide (m < n))).filter p).length < k) := by
  intro l
  induction l with
  | nil =>
      intro k _
      simp
  | cons a l ih =>
      intro k hp
      rw [List.pairwise_cons] at hp
      obtain ⟨ha, hl⟩ := hp
      by_cases hpa : p a = true
      · cases k with
        | zero => simp
        | succ k =>
            simp only [List.filter_cons, hpa, if_true, List.take_succ_cons,
              List.mem_cons]
            by_cases hna : n = a
            · subst hna
              have hflt : l.filter (fun m => decide (m < n)) = [] := by
                rw [List.filter_eq_nil_iff]
                intro m hm
                simp only [decide_eq_true_eq]
                exact Nat.not_lt.mpr (Nat.le_of_lt (ha m hm))
              have hnn : (decide (n < n)) = false := by simp
              simp [hflt, hnn, hpa]
            · have hiff := ih k hl
              constructor
              · intro hmem
                rcases hmem with hmem | hmem
                · exact absurd hmem hna
                · obtain ⟨hn, hpn, hcnt⟩ := hiff.mp hmem
                  have han : (decide (a < n)) = true := by
                    simp [ha n hn]
                  refine ⟨Or.inr hn, hpn, ?_⟩
                  simp only [han, if_true, List.filter_cons, hpa, List.length_cons]
                  omega
              · rintro ⟨hn | hn, hpn, hcnt⟩
                · exact absurd hn hna
                · have han : (decide (a < n)) = true := by
                    simp [ha n hn]
                  simp only [han, if_true, List.filter_cons, hpa,
                    List.length_cons] at hcnt
                  exact Or.inr (hiff.mpr ⟨hn, hpn, by omega⟩)
      · have hpa' : p a = false := by
          simpa using hpa
        simp only [List.filter_cons, hpa', Bool.false_eq_true, if_false,
          List.mem_cons]
        have hiff := ih k hl
        have hcnt_eq :
            ((if decide (a < n) = true
                then a :: l.filter (fun m => decide (m < n))
                else l.filter (fun m => decide (m < n))).filter p).length
            = ((l.filter (fun m => decide (m < n))).filter p).length := by
          split
          · simp [List.filter_cons, hpa']
          · rfl
        rw [hiff]
        constructor
        · rintro ⟨hn, hpn, hc⟩
          exact ⟨Or.inr hn, hpn, by rw [hcnt_eq]; exact hc⟩
        · rintro ⟨hn | hn, hpn, hc⟩
          · rw [hn] at hpn
            rw [hpn] at hpa'
            cases hpa'
          · exact ⟨hn, hpn, by rw [hcnt_eq] at hc; exact hc⟩

theorem spriteEntries_pairwise : spriteEntries.Pairwise (· < ·) := by
  unfold spriteEntries
  rw [List.pairwise_map]
  exact (List.pairwise_lt_range 40).imp (by omega)

/-- C5: the selection loop of `scanline_sprites` picks the OAM entry `n`
exactly when its sprite is on the scanline (`OAM[n]-16 ≤ ly < OAM[n]-16+h`)
and fewer than 10 on-scanline sprites occur at earlier OAM entries; at most
10 entries are selected, and the selected list is precisely the first 10
(the lowest-OAM-index subset) of the eligible entries in OAM order. -/
theorem scanline_sprites_selection (oam : Nat → Nat) (ly h : Int) :
    scanlineSpritesSelect oam ly h =
      (spriteEntries.filter (spriteOnScanline oam ly h)).take 10 ∧
    (scanlineSpritesSelect oam ly h).length ≤ 10 ∧
    (∀ n : Nat, n ∈ scanlineSpritesSelect oam ly h ↔
      (n ∈ spriteEntries ∧ spriteOnScanline oam ly h n = true ∧
        ((spriteEntries.filter (fun m => decide (m < n))).filter
          (spriteOnScanline oam ly h)).length < 10)) := by
  have hsel : scanlineSpritesSelect oam ly h =
      (spriteEntries.filter (spriteOnScanline oam ly h)).take 10 := by
    unfold scanlineSpritesSelect
    rw [selectGo_eq_take_filter oam ly h spriteEntries 0 [] (by norm_num)]
    simp
  refine ⟨hsel, ?_, ?_⟩
  · rw [hsel]
    simp [List.length_take]
  · intro n
    rw [hsel]
    exact mem_take_filter_sorted (spriteOnScanline oam ly h) n spriteEntries 10
      spriteEntries_pairwise

/-! ## Renderer: sprite draw order (lcd.py 368–383, 398–419) -/

/-- DMG sort key of the sprite at OAM byte offset `n` (lcd.py 402):
Python packs `x << 16 | n` with `x = OAM[n+1] - 8` (possibly negative).
Since the low 16 bits of `x << 16` are zero — also for negative `x` in
two's complement — and `0 ≤ n < 2^16`, that bitwise OR equals
`x * 2^16 + n`, which is the form used here. -/
def dmg_sprite_key (oam : Nat → Nat) (n : Nat) : Int :=
  ((oam (n + 1) : Int) - 8) * 65536 + n

/-- CGB sort key of the sprite at OAM byte offset `n` (lcd.py 400): the OAM
offset itself. -/
def cgb_sprite_key (n : Nat) : Int := n

/-- One insertion step of `sort_sprites`: place `key` before the first
element it exceeds (the Python loop shifts elements while `key >
sprites_to_render[j]`). -/
def insertDesc (key : Int) : List Int → List Int
  | [] => [key]
  | x :: xs => if key > x then key :: x :: xs else x :: insertDesc key xs

/-- `Renderer.sort_sprites` (lcd.py 368–383): insertion sort of the pending
sprite keys in descending order.  The in-place array sort is modelled as the
standard list insertion sort, which yields the same descending-sorted
permutation of the keys. -/
def sort_sprites (l : List Int) : List Int :=
  l.foldl (fun acc k => insertDesc k acc) []

/-- Last-write-wins composition of the sprite drawing loop at a fixed screen
position (lcd.py 415–491): the sprites are drawn in list order; a sprite
with key `k` overwrites the pixel when it produces an opaque pixel there
(`w k = some c`), otherwise the buffer keeps its previous value. -/
def drawPixel (order : List Int) (w : Int → Option Nat) (init : Nat) : Nat :=
  order.foldl (fun buf k => (w k).getD buf) init

theorem insertDesc_perm (k : Int) (l : List Int) :
    List.Perm (insertDesc k l) (k :: l) := by
  induction l with
  | nil => rfl
  | cons x xs ih =>
      unfold insertDesc
      split
      · rfl
      · exact (ih.cons x).trans (List.Perm.swap k x xs)

theorem insertDesc_sorted (k : Int) (l : List Int) (hl : l.Sorted (· ≥ ·)) :
    (insertDesc k l).Sorted (· ≥ ·) := by
  induction l with
  | nil => simp [insertDesc]
  | cons x xs ih =>
      rw [List.sorted_cons] at hl
      obtain ⟨hx, hxs⟩ := hl
      unfold insertDesc
      split
      case isTrue hgt =>
        rw [List.sorted_cons]
        refine ⟨?_, List.sorted_cons.mpr ⟨hx, hxs⟩⟩
        intro b hb
        rcases List.mem_cons.mp hb with hb | hb
        · omega
        · have := hx b hb
          omega
      case isFalse hle =>
        rw [List.sorted_cons]
        refine ⟨?_, ih hxs⟩
        intro b hb
        have hb' := (insertDesc_perm k xs).mem_iff.mp hb
        rcases List.mem_cons.mp hb' with hb' | hb'
        · omega
        · exact hx b hb'

theorem sort_sprites_perm (l : List Int) : List.Perm (sort_sprites l) l := by
  suffices h : ∀ (l acc : List Int),
      List.Perm (l.foldl (fun acc k => insertDesc k acc) acc) (acc ++ l) by
    simpa using h l []
  intro l
  induction l with
  | nil => simp
  | cons x xs ih =>
      intro acc
      have h1 : (x :: xs).foldl (fun acc k => insertDesc k acc) acc
          = xs.foldl (fun acc k => insertDesc k acc) (insertDesc x acc) := rfl
      rw [h1]
      refine ((ih (insertDesc x acc)).trans ?_)
      refine ((insertDesc_perm x acc).append_right xs).trans ?_
      have hmid : List.Perm (acc ++ x :: xs) (x :: (acc ++ xs)) := List.perm_middle
      simpa using hmid.symm

theorem sort_sprites_sorted (l : List Int) : (sort_sprites l).Sorted (· ≥ ·) := by
  suffices h : ∀ (l acc : List Int), acc.Sorted (· ≥ ·) →
      (l.foldl (fun acc k => insertDesc k acc) acc).Sorted (· ≥ ·) by
    exact h l [] (by simp)
  intro l
  induction l with
  | nil => exact fun acc h => h
  | cons x xs ih =>
      intro acc hacc
      exact ih (insertDesc x acc) (insertDesc_sorted x acc hacc)

theorem drawPixel_no_writer (order : List Int) (w : Int → Option Nat) (init : Nat)
    (h : ∀ k ∈ order, w k = none) : drawPixel order w init = init := by
  induction order generalizing init with
  | nil => rfl
  | cons a rest ih =>
      have ha : w a = none := h a (List.mem_cons_self a rest)
      unfold drawPixel
      simp only [List.foldl_cons, ha, Option.getD_none]
      exact ih init (fun k hk => h k (List.mem_cons_of_mem a hk))

theorem drawPixel_min_writer (w : Int → Option Nat) (c : Nat) (k : Int)
    (hw : w k = some c) :
    ∀ (order : List Int), order.Sorted (· ≥ ·) → order.Nodup → k ∈ order →
      (∀ k' ∈ order, w k' ≠ none → k ≤ k') →
      ∀ init, drawPixel order w init = c := by
  intro order
  induction order with
  | nil =>
      intro _ _ hk _ _
      cases hk
  | cons a rest ih =>
      intro hsorted hnd hk hmin init
      rw [List.sorted_cons] at hsorted
      obtain ⟨hge, hrest⟩ := hsorted
      rw [List.nodup_cons] at hnd
      obtain ⟨hna, hndr⟩ := hnd
      by_cases hka : k = a
      · subst hka
        have hnone : ∀ k' ∈ rest, w k' = none := by
          intro k' hk'
          by_contra hwk
          have h1 := hmin k' (List.mem_cons_of_mem k hk') hwk
          have h2 := hge k' hk'
          have : k' = k := le_antisymm h2 h1
          rw [this] at hk'
          exact hna hk'
        unfold drawPixel
        simp only [List.foldl_cons, hw, Option.getD_some]
        exact drawPixel_no_writer rest w c hnone
      · have hkr : k ∈ rest := by
          rcases List.mem_cons.mp hk with h | h
          · exact absurd h hka
          · exact h
        unfold drawPixel
        simp only [List.foldl_cons]
        exact ih hrest hndr hkr
          (fun k' hk' hwk => hmin k' (List.mem_cons_of_mem a hk') hwk)
          ((w a).getD init)

theorem drawPixel_sort_two_writers (keys : List Int) (k1 k2 : Int)
    (hnd : keys.Nodup) (h1 : k1 ∈ keys) (h2 : k2 ∈ keys) (hlt : k1 < k2)
    (w : Int → Option Nat) (c1 c2 init : Nat)
    (hw1 : w k1 = some c1) (hw2 : w k2 = some c2)
    (hother : ∀ k ∈ keys, k ≠ k1 → k ≠ k2 → w k = none) :
    drawPixel (sort_sprites keys) w init = c1 := by
  have hperm := sort_sprites_perm keys
  refine drawPixel_min_writer w c1 k1 hw1 (sort_sprites keys)
    (sort_sprites_sorted keys) (hperm.nodup_iff.mpr hnd)
    (hperm.mem_iff.mpr h1) ?_ init
  intro k hk hwk
  have hkm : k ∈ keys := hperm.mem_iff.mp hk
  by_cases hk1 : k = k1
  · omega
  by_cases hk2 : k = k2
  · omega
  exact absurd (hother k hkm hk1 hk2) hwk

theorem dmg_sprite_key_lt (oam : Nat → Nat) (n1 n2 : Nat)
    (hb1 : n1 < 65536) (hb2 : n2 < 65536)
    (hx : (oam (n1 + 1) : Int) - 8 < (oam (n2 + 1) : Int) - 8 ∨
      ((oam (n1 + 1) : Int) - 8 = (oam (n2 + 1) : Int) - 8 ∧ n1 < n2)) :
    dmg_sprite_key oam n1 < dmg_sprite_key oam n2 := by
  unfold dmg_sprite_key
  rcases hx with hx | ⟨hx, hn⟩
  · have h1 : ((oam (n1 + 1) : Int) - 8 + 1) * 65536 ≤ ((oam (n2 + 1) : Int) - 8) * 65536 := by
      have := Int.mul_le_mul_of_nonneg_right (by omega :
        (oam (n1 + 1) : Int) - 8 + 1 ≤ (oam (n2 + 1) : Int) - 8) (by norm_num : (0:Int) ≤ 65536)
      omega
    have hn1 : (n1 : Int) < 65536 := by exact_mod_cast hb1
    have hn2 : (0 : Int) ≤ (n2 : Int) := Int.natCast_nonneg n2
    omega
  · rw [hx]
    have : (n1 : Int) < (n2 : Int) := by exact_mod_cast hn
    omega

theorem dmg_sprite_key_inj (oam : Nat → Nat) (n1 n2 : Nat)
    (hb1 : n1 < 65536) (hb2 : n2 < 65536)
    (h : dmg_sprite_key oam n1 = dmg_sprite_key oam n2) : n1 = n2 := by
  unfold dmg_sprite_key at h
  have hn1 : (n1 : Int) < 65536 := by exact_mod_cast hb1
  have hn2 : (n2 : Int) < 65536 := by exact_mod_cast hb2
  have h1 : (0 : Int) ≤ (n1 : Int) := Int.natCast_nonneg n1
  have h2 : (0 : Int) ≤ (n2 : Int) := Int.natCast_nonneg n2
  have : (n1 : Int) = (n2 : Int) := by
    set x1 : Int := (oam (n1 + 1) : Int) - 8 with hx1
    set x2 : Int := (oam (n2 + 1) : Int) - 8 with hx2
    omega
  exact_mod_cast this

/-- C6: sprite draw order and resulting priority.  `sort_sprites` arranges
the pending keys in descending order (first conjunct).  In DMG mode the key
is `(x << 16) | n`, so of two selected sprites whose opaque pixels overlap
at a screen position, the one with the smaller X — and at equal X, the one
with the lower OAM offset — has the strictly smaller key, is drawn later,
and its colour ends up in the buffer (second conjunct).  In CGB mode the
key is the OAM offset alone, and the lower OAM offset ends up on top (third
conjunct). -/
theorem sprite_draw_priority :
    (∀ keys : List Int,
      List.Perm (sort_sprites keys) keys ∧ (sort_sprites keys).Sorted (· ≥ ·)) ∧
    (∀ (oam : Nat → Nat) (sel : List Nat), sel.Nodup → (∀ n ∈ sel, n < 65536) →
      ∀ n1 ∈ sel, ∀ n2 ∈ sel,
        ((oam (n1 + 1) : Int) - 8 < (oam (n2 + 1) : Int) - 8 ∨
          ((oam (n1 + 1) : Int) - 8 = (oam (n2 + 1) : Int) - 8 ∧ n1 < n2)) →
        ∀ (w : Int → Option Nat) (c1 c2 init : Nat),
          w (dmg_sprite_key oam n1) = some c1 →
          w (dmg_sprite_key oam n2) = some c2 →
          (∀ n ∈ sel, n ≠ n1 → n ≠ n2 → w (dmg_sprite_key oam n) = none) →
          drawPixel (sort_sprites (sel.map (dmg_sprite_key oam))) w init = c1) ∧
    (∀ (sel : List Nat), sel.Nodup →
      ∀ n1 ∈ sel, ∀ n2 ∈ sel, n1 < n2 →
        ∀ (w : Int → Option Nat) (c1 c2 init : Nat),
          w (cgb_sprite_key n1) = some c1 → w (cgb_sprite_key n2) = some c2 →
          (∀ n ∈ sel, n ≠ n1 → n ≠ n2 → w (cgb_sprite_key n) = none) →
          drawPixel (sort_sprites (sel.map cgb_sprite_key)) w init = c1) := by
  refine ⟨fun keys => ⟨sort_sprites_perm keys, sort_sprites_sorted keys⟩, ?_, ?_⟩
  · intro oam sel hnd hbound n1 hn1 n2 hn2 hx w c1 c2 init hw1 hw2 hother
    refine drawPixel_sort_two_writers (sel.map (dmg_sprite_key oam))
      (dmg_sprite_key oam n1) (dmg_sprite_key oam n2)
      (List.Nodup.map_on
        (fun a ha b hb hab => dmg_sprite_key_inj oam a b (hbound a ha) (hbound b hb) hab)
        hnd)
      (List.mem_map_of_mem _ hn1) (List.mem_map_of_mem _ hn2)
      (dmg_sprite_key_lt oam n1 n2 (hbound n1 hn1) (hbound n2 hn2) hx)
      w c1 c2 init hw1 hw2 ?_
    intro k hk hk1 hk2
    obtain ⟨n, hn, rfl⟩ := List.mem_map.mp hk
    refine hother n hn ?_ ?_
    · intro h
      exact hk1 (by rw [h])
    · intro h
      exact hk2 (by rw [h])
  · intro sel hnd n1 hn1 n2 hn2 hlt w c1 c2 init hw1 hw2 hother
    refine drawPixel_sort_two_writers (sel.map cgb_sprite_key)
      (cgb_sprite_key n1) (cgb_sprite_key n2)
      (List.Nodup.map_on
        (fun a _ b _ hab => by
          unfold cgb_sprite_key at hab
          exact_mod_cast hab) hnd)
      (List.mem_map_of_mem _ hn1) (List.mem_map_of_mem _ hn2)
      (by unfold cgb_sprite_key; exact_mod_cast hlt)
      w c1 c2 init hw1 hw2 ?_
    intro k hk hk1 hk2
    obtain ⟨n, hn, rfl⟩ := List.mem_map.mp hk
    refine hother n hn ?_ ?_
    · intro h
      exact hk1 (by rw [h])
    · intro h
      exact hk2 (by rw [h])

/-- OAM bytes of the spec's DMG priority scenario: the sprite at entry 0
has X byte 38 (screen X 30), the later entry 4 has X byte 36 (screen X 28). -/
def oamPair : Nat → Nat := fun a => if a = 1 then 38 else if a = 5 then 36 else 0

def wDMG : Int → Option Nat := fun k =>
  if k = dmg_sprite_key oamPair 4 then some 1
  else if k = dmg_sprite_key oamPair 0 then some 2 else none

def wCGB : Int → Option Nat := fun k =>
  if k = cgb_sprite_key 0 then some 3
  else if k = cgb_sprite_key 4 then some 4 else none

theorem sprite_draw_priority_witness :
    drawPixel (sort_sprites ([0, 4].map (dmg_sprite_key oamPair))) wDMG 0 = 1 ∧
    drawPixel (sort_sprites ([0, 4].map cgb_sprite_key)) wCGB 0 = 3 := by
  constructor
  · exact sprite_draw_priority.2.1 oamPair [0, 4] (by decide) (by decide) 4 (by decide) 0
      (by decide) (Or.inl (by decide)) wDMG 1 2 0 (by decide) (by decide) (by decide)
  · exact sprite_draw_priority.2.2 [0, 4] (by decide) 0 (by decide) 4 (by decide)
      (by decide) wCGB 3 4 0 (by decide) (by decide) (by decide)

/-! ## CPU interrupt dispatch (cpu.py 15–122) -/

/-- CPU state (cpu.py 24–44) together with the motherboard view the
interrupt path touches: `mem` stands for the address space written through
`mb.setitem`, and `breakpoint_singlestep` for `mb.breakpoint_singlestep`.
`interrupts_flag_register` is IF, `interrupts_enabled_register` is IE. -/
structure CPU where
  A : Nat
  F : Nat
  B : Nat
  C : Nat
  D : Nat
  E : Nat
  HL : Nat
  SP : Nat
  PC : Nat
  interrupts_flag_register : Nat
  interrupts_enabled_register : Nat
  interrupt_master_enable : Bool
  interrupt_queued : Bool
  halted : Bool
  stopped : Bool
  is_stuck : Bool
  mem : Nat → Nat
  breakpoint_singlestep : Bool

/-- A write through `mb.setitem` (the motherboard routes it; only the
address-value effect matters here). -/
def CPU.setmem (s : CPU) (addr v : Nat) : CPU :=
  { s with mem := fun a => if a = addr then v else s.mem a }

/-- `CPU.handle_interrupt` (cpu.py 98–115).  Python's `(SP - 1) & 0xFFFF`
and `SP -= 2; SP &= 0xFFFF` wrap in two's complement; for `SP < 2^16` they
equal `(SP + 2^16 - 1) % 2^16` and `(SP + 2^16 - 2) % 2^16`, the forms used
here (SP stays below `2^16` in every reachable state). -/
def CPU.handle_interrupt (s : CPU) (flag addr : Nat) : Bool × CPU :=
  if s.interrupts_enabled_register &&& flag ≠ 0 ∧
      s.interrupts_flag_register &&& flag ≠ 0 then
    let s := if s.halted then { s with PC := (s.PC + 1) % 65536 } else s
    let s :=
      if s.interrupt_master_enable then
        let s := { s with
          interrupts_flag_register := s.interrupts_flag_register ^^^ flag }
        let s := s.setmem ((s.SP + 65535) % 65536) (s.PC >>> 8)
        let s := s.setmem ((s.SP + 65534) % 65536) (s.PC &&& 0xFF)
        let s := { s with SP := (s.SP + 65534) % 65536 }
        { s with PC := addr, interrupt_master_enable := false }
      else s
    (true, s)
  else
    (false, s)

/-- `CPU.check_interrupts` (cpu.py 74–96): with no interrupt already queued
and `IF & IE & 0x1F` nonzero, try the five sources in priority order; the
first `handle_interrupt` that reports `True` ends the chain and the CPU
records `interrupt_queued = True`.  Returns (return value, new state). -/
def CPU.check_interrupts (s : CPU) : Bool × CPU :=
  if s.interrupt_queued then
    (false, s)
  else if (s.interrupts_flag_register &&& 0b11111) &&&
      (s.interrupts_enabled_register &&& 0b11111) ≠ 0 then
    let r := s.handle_interrupt INTR_VBLANK 0x0040
    if r.1 then (true, { r.2 with interrupt_queued := true })
    else
      let r := r.2.handle_interrupt INTR_LCDC 0x0048
      if r.1 then (true, { r.2 with interrupt_queued := true })
      else
        let r := r.2.handle_interrupt INTR_TIMER 0x0050
        if r.1 then (true, { r.2 with interrupt_queued := true })
        else
          let r := r.2.handle_interrupt INTR_SERIAL 0x0058
          if r.1 then (true, { r.2 with interrupt_queued := true })
          else
            let r := r.2.handle_interrupt INTR_HIGHTOLOW 0x0060
            if r.1 then (true, { r.2 with interrupt_queued := true })
            else (true, { r.2 with interrupt_queued := false })
  else
    (false, { s with interrupt_queued := false })

/-- The tail of `CPU.tick` (cpu.py 65–72): run `fetch_and_execute`, detect a
stuck CPU (PC and SP unchanged, not single-stepping), clear
`interrupt_queued`, and return the consumed cycles. -/
def CPU.tickExec (ex : CPU → Nat × CPU) (s : CPU) : Nat × CPU :=
  let old_pc := s.PC
  let old_sp := s.SP
  let r := ex s
  let s := r.2
  let s :=
    if ¬s.halted = true ∧ old_pc = s.PC ∧ old_sp = s.SP ∧ ¬s.is_stuck = true ∧
        ¬s.breakpoint_singlestep = true then
      { s with is_stuck := true }
    else s
  (r.1, { s with interrupt_queued := false })

/-- `CPU.tick` (cpu.py 49–72), parameterized by `ex`, the embedding of
`fetch_and_execute` (cpu.py 117–122): its opcode interpreter
(`opcodes.execute_opcode`) lies outside the sources under verification, and
the interrupt-dispatch path settled here returns before reaching it.  `ex`
returns the executed instruction's cycle count and post-state. -/
def CPU.tick (ex : CPU → Nat × CPU) (s : CPU) : Nat × CPU :=
  let c := s.check_interrupts
  if c.1 then
    (0, { c.2 with halted := false })
  else
    let s := c.2
    if s.halted = true ∧ s.interrupt_queued = true then
      CPU.tickExec ex { s with halted := false, PC := (s.PC + 1) % 65536 }
    else if s.halted then
      (4, s)
    else
      CPU.tickExec ex s

theorem land_two_pow_ne_zero (x j : Nat) :
    (x &&& 2 ^ j ≠ 0) ↔ x.testBit j = true := by
  rw [Nat.and_two_pow]
  cases h : x.testBit j <;> simp [h]

theorem handle_interrupt_fires (s : CPU) (j addr : Nat)
    (hIEj : s.interrupts_enabled_register.testBit j = true)
    (hIFj : s.interrupts_flag_register.testBit j = true)
    (hh : s.halted = false) (hime : s.interrupt_master_enable = true) :
    (s.handle_interrupt (2 ^ j) addr).1 = true ∧
    (s.handle_interrupt (2 ^ j) addr).2.interrupts_flag_register =
      s.interrupts_flag_register ^^^ 2 ^ j ∧
    (s.handle_interrupt (2 ^ j) addr).2.mem ((s.SP + 65535) % 65536) = s.PC >>> 8 ∧
    (s.handle_interrupt (2 ^ j) addr).2.mem ((s.SP + 65534) % 65536) = s.PC &&& 0xFF ∧
    (s.handle_interrupt (2 ^ j) addr).2.SP = (s.SP + 65534) % 65536 ∧
    (s.handle_interrupt (2 ^ j) addr).2.PC = addr ∧
    (s.handle_interrupt (2 ^ j) addr).2.interrupt_master_enable = false ∧
    (s.handle_interrupt (2 ^ j) addr).2.halted = false ∧
    (s.handle_interrupt (2 ^ j) addr).2.interrupt_queued = s.interrupt_queued := by
  have hcond : s.interrupts_enabled_register &&& 2 ^ j ≠ 0 ∧
      s.interrupts_flag_register &&& 2 ^ j ≠ 0 :=
    ⟨(land_two_pow_ne_zero _ j).mpr hIEj, (land_two_pow_ne_zero _ j).mpr hIFj⟩
  have hne : ((s.SP + 65535) % 65536) ≠ ((s.SP + 65534) % 65536) := by omega
  simp [CPU.handle_interrupt, CPU.setmem, hcond, hh, hime, hne]

theorem handle_interrupt_no_fire (s : CPU) (j addr : Nat)
    (h : s.interrupts_enabled_register.testBit j = false ∨
      s.interrupts_flag_register.testBit j = false) :
    s.handle_interrupt (2 ^ j) addr = (false, s) := by
  have hcond : ¬(s.interrupts_enabled_register &&& 2 ^ j ≠ 0 ∧
      s.interrupts_flag_register &&& 2 ^ j ≠ 0) := by
    rcases h with h | h
    · intro hc
      rw [land_two_pow_ne_zero] at hc
      rw [hc.1] at h
      cases h
    · intro hc
      rw [land_two_pow_ne_zero, land_two_pow_ne_zero] at hc
      rw [hc.2] at h
      cases h
  simp [CPU.handle_interrupt, hcond]

/-- C1: from a state with IME set, not halted, no interrupt queued, and `i`
the lowest set bit of `IF & IE & 0x1F`, the next `tick` dispatches source
`i`: the bit is cleared in IF (by the XOR at cpu.py 106), the old PC's high
byte is written to `(SP-1) mod 2^16` and its low byte to `(SP-2) mod 2^16`,
SP becomes `(SP-2) mod 2^16`, PC becomes `0x40 + 8*i`, IME is cleared, and
the CPU is not halted. -/
theorem cpu_tick_interrupt_dispatch (ex : CPU → Nat × CPU) (s : CPU) (i : Nat)
    (hq : s.interrupt_queued = false) (hh : s.halted = false)
    (hime : s.interrupt_master_enable = true) (hi : i < 5)
    (hbit : (s.interrupts_flag_register &&&
      s.interrupts_enabled_register).testBit i = true)
    (hlow : ∀ j, j < i → (s.interrupts_flag_register &&&
      s.interrupts_enabled_register).testBit j = false) :
    (CPU.tick ex s).2.interrupts_flag_register =
      s.interrupts_flag_register ^^^ (1 <<< i) ∧
    (CPU.tick ex s).2.interrupts_flag_register.testBit i = false ∧
    (CPU.tick ex s).2.mem ((s.SP + 65535) % 65536) = s.PC >>> 8 ∧
    (CPU.tick ex s).2.mem ((s.SP + 65534) % 65536) = s.PC &&& 0xFF ∧
    (CPU.tick ex s).2.SP = (s.SP + 65534) % 65536 ∧
    (CPU.tick ex s).2.PC = 0x40 + 8 * i ∧
    (CPU.tick ex s).2.interrupt_master_enable = false ∧
    (CPU.tick ex s).2.halted = false := by
  have hIF : s.interrupts_flag_register.testBit i = true := by
    have := Nat.testBit_land s.interrupts_flag_register
      s.interrupts_enabled_register i
    rw [hbit] at this
    exact (Bool.and_eq_true _ _).mp this.symm |>.1
  have hIE : s.interrupts_enabled_register.testBit i = true := by
    have := Nat.testBit_land s.interrupts_flag_register
      s.interrupts_enabled_register i
    rw [hbit] at this
    exact (Bool.and_eq_true _ _).mp this.symm |>.2
  have hlowIF : ∀ j, j < i →
      (s.interrupts_enabled_register.testBit j = false ∨
        s.interrupts_flag_register.testBit j = false) := by
    intro j hj
    have := Nat.testBit_land s.interrupts_flag_register
      s.interrupts_enabled_register j
    rw [hlow j hj] at this
    rcases Bool.and_eq_false_iff.mp this.symm with h | h
    · exact Or.inr h
    · exact Or.inl h
  have h31 : Nat.testBit 31 i = true := by
    interval_cases i <;> decide
  have houter : (s.interrupts_flag_register &&& 0b11111) &&&
      (s.interrupts_enabled_register &&& 0b11111) ≠ 0 := by
    intro h0
    have ht : ((s.interrupts_flag_register &&& 0b11111) &&&
        (s.interrupts_enabled_register &&& 0b11111)).testBit i = true := by
      simp [Nat.testBit_land, hIF, hIE, h31]
    rw [h0, Nat.zero_testBit] at ht
    cases ht
  have hxorbit : (s.interrupts_flag_register ^^^ 2 ^ i).testBit i = false := by
    rw [Nat.testBit_xor, hIF, Nat.testBit_two_pow_self]
    rfl
  have hshift : (1 <<< i : Nat) = 2 ^ i := by
    rw [Nat.shiftLeft_eq, one_mul]
  interval_cases i
  · have hf := handle_interrupt_fires s 0 0x0040 hIE hIF hh hime
    norm_num at hf hxorbit hshift ⊢
    simp [CPU.tick, CPU.check_interrupts, INTR_VBLANK, hq, houter, hf, hxorbit]
  · have hn0 := handle_interrupt_no_fire s 0 0x0040 (hlowIF 0 (by norm_num))
    have hf := handle_interrupt_fires s 1 0x0048 hIE hIF hh hime
    norm_num at hn0 hf hxorbit hshift ⊢
    simp [CPU.tick, CPU.check_interrupts, INTR_VBLANK, INTR_LCDC, hq, houter,
      hn0, hf, hxorbit]
  · have hn0 := handle_interrupt_no_fire s 0 0x0040 (hlowIF 0 (by norm_num))
    have hn1 := handle_interrupt_no_fire s 1 0x0048 (hlowIF 1 (by norm_num))
    have hf := handle_interrupt_fires s 2 0x0050 hIE hIF hh hime
    norm_num at hn0 hn1 hf hxorbit hshift ⊢
    simp [CPU.tick, CPU.check_interrupts, INTR_VBLANK, INTR_LCDC, INTR_TIMER,
      hq, houter, hn0, hn1, hf, hxorbit]
  · have hn0 := handle_interrupt_no_fire s 0 0x0040 (hlowIF 0 (by norm_num))
    have hn1 := handle_interrupt_no_fire s 1 0x0048 (hlowIF 1 (by norm_num))
    have hn2 := handle_interrupt_no_fire s 2 0x0050 (hlowIF 2 (by norm_num))
    have hf := handle_interrupt_fires s 3 0x0058 hIE hIF hh hime
    norm_num at hn0 hn1 hn2 hf hxorbit hshift ⊢
    simp [CPU.tick, CPU.check_interrupts, INTR_VBLANK, INTR_LCDC, INTR_TIMER,
      INTR_SERIAL, hq, houter, hn0, hn1, hn2, hf, hxorbit]
  · have hn0 := handle_interrupt_no_fire s 0 0x0040 (hlowIF 0 (by norm_num))
    have hn1 := handle_interrupt_no_fire s 1 0x0048 (hlowIF 1 (by norm_num))
    have hn2 := handle_interrupt_no_fire s 2 0x0050 (hlowIF 2 (by norm_num))
    have hn3 := handle_interrupt_no_fire s 3 0x0058 (hlowIF 3 (by norm_num))
    have hf := handle_interrupt_fires s 4 0x0060 hIE hIF hh hime
    norm_num at hn0 hn1 hn2 hn3 hf hxorbit hshift ⊢
    simp [CPU.tick, CPU.check_interrupts, INTR_VBLANK, INTR_LCDC, INTR_TIMER,
      INTR_SERIAL, INTR_HIGHTOLOW, hq, houter, hn0, hn1, hn2, hn3, hf, hxorbit]

/-- The spec's concrete dispatch scenario: IME=1, IE=0x01, IF=0x01,
SP=0xFFFE, PC=0x0150, not halted, nothing queued, zeroed memory. -/
def cpuScenario : CPU :=
  { A := 0, F := 0, B := 0, C := 0, D := 0, E := 0, HL := 0,
    SP := 0xFFFE, PC := 0x0150,
    interrupts_flag_register := 0x01, interrupts_enabled_register := 0x01,
    interrupt_master_enable := true, interrupt_queued := false,
    halted := false, stopped := false, is_stuck := false,
    mem := fun _ => 0, breakpoint_singlestep := false }

theorem cpu_tick_interrupt_dispatch_witness :
    (CPU.tick (fun s => (4, s)) cpuScenario).2.interrupts_flag_register =
      0x01 ^^^ (1 <<< 0) ∧
    (CPU.tick (fun s => (4, s)) cpuScenario).2.interrupts_flag_register.testBit 0
      = false ∧
    (CPU.tick (fun s => (4, s)) cpuScenario).2.mem 0xFFFD = 0x0150 >>> 8 ∧
    (CPU.tick (fun s => (4, s)) cpuScenario).2.mem 0xFFFC = 0x0150 &&& 0xFF ∧
    (CPU.tick (fun s => (4, s)) cpuScenario).2.SP = 0xFFFC ∧
    (CPU.tick (fun s => (4, s)) cpuScenario).2.PC = 0x40 + 8 * 0 ∧
    (CPU.tick (fun s => (4, s)) cpuScenario).2.interrupt_master_enable = false ∧
    (CPU.tick (fun s => (4, s)) cpuScenario).2.halted = false :=
  cpu_tick_interrupt_dispatch (fun s => (4, s)) cpuScenario 0 rfl rfl rfl
    (by norm_num) (by decide) (fun j hj => absurd hj (Nat.not_lt_zero j))

/-- C2 (code divergence record): in the very dispatch scenario of the spec,
`CPU.tick` returns 0 cycles — cpu.py 52–53 reads `return 0` under the
comment "TODO: We return with the cycles it took to handle the interrupt" —
whereas the documented cost of interrupt handling is 20 cycles. -/
theorem cpu_tick_interrupt_dispatch_cycles :
    (CPU.tick (fun s => (4, s)) cpuScenario).1 = 0 := by
  rfl

end Smartboy
